import Mathlib

/-!
Verification of the IPython parallel launcher framework
(IPython/parallel/apps/launcher.py) and the engine dispatch kernel
(IPython/parallel/engine/streamkernel.py), as a shallow embedding in Lean.

Conventions of the embedding:
* Python strings are Lean `String`s; batch-script template text is carried
  as `List Char` so that regex searching and line splicing stay structural.
* Python dicts are association lists with the CPython insertion-order
  update semantics (`assocSet` updates an existing key in place and appends
  a fresh key at the end), or `Finset String` for the kernel's abort set.
* Exceptions are surfaced as `Option`/`Except`-style error components of
  each operation's result; external effects (Popen, check_output, sockets)
  enter as oracle arguments carrying the data the effect would return, and
  outgoing messages are collected in effect lists.
-/

namespace IPyLaunch

/-- Launcher lifecycle state: `self.state` can be 'before', 'running', 'after'. -/
inductive LState
  | before
  | running
  | after
deriving DecidableEq, Repr

/-- `start_data`: a pid for local launchers, a job id for batch/WinHPC. -/
inductive StartData
  | pid (p : Nat)
  | jobId (j : String)
deriving DecidableEq, Repr

/-- `stop_data`: `dict(exit_code=status, pid=...)` for local launchers,
`dict(job_id=..., output=...)` for batch/WinHPC launchers. -/
inductive StopData
  | procExit (exit_code : Int) (pid : Nat)
  | jobStop (job_id : String) (output : String)
deriving DecidableEq, Repr

/-- An invocation of a registered stop callback: callback id paired with the
`stop_data` it was handed (`None` if `stop_data` was never set). -/
abbrev Invocation := Nat × Option StopData

/-- The mutable state BaseLauncher.__init__ sets up: lifecycle state,
start/stop data, and the ordered list of registered stop callbacks
(identified by opaque ids, registration order = list order). -/
structure BaseState where
  state : LState
  start_data : Option StartData
  stop_data : Option StopData
  stop_callbacks : List Nat
deriving DecidableEq, Repr

/-- BaseLauncher state right after `__init__`. -/
def initBase : BaseState :=
  { state := .before, start_data := none, stop_data := none, stop_callbacks := [] }

/-- `notify_start(data)`: records `start_data` and sets state to 'running'. -/
def notify_start (d : StartData) (s : BaseState) : BaseState :=
  { s with start_data := some d, state := .running }

/-- The callback drain loop of `notify_stop`:
`for i in range(len(self.stop_callbacks)): d = self.stop_callbacks.pop(); d(data)`.
Python `list.pop()` with no argument removes the LAST element, so the loop
yields the callbacks last-registered-first and leaves the list empty. -/
def drainPopAux : Nat → List Nat → List Nat
  | 0, _ => []
  | n + 1, cbs =>
      match cbs.getLast? with
      | none => []
      | some c => c :: drainPopAux n cbs.dropLast

/-- The drain loop runs `len(stop_callbacks)` iterations. -/
def drainPop (cbs : List Nat) : List Nat :=
  drainPopAux cbs.length cbs

/-- `notify_stop(data)`: records `stop_data`, sets state to 'after', then
drains `stop_callbacks` with the pop loop, invoking each drained callback
with `data`.  Returns the new state and the invocation list in call order. -/
def notify_stop (d : StopData) (s : BaseState) : BaseState × List Invocation :=
  ({ s with stop_data := some d, state := .after, stop_callbacks := [] },
   (drainPop s.stop_callbacks).map (fun c => (c, some d)))

/-- `on_stop(f)`: if state is 'after', invoke `f(self.stop_data)` immediately;
otherwise append `f` to `stop_callbacks`. -/
def on_stop (cb : Nat) (s : BaseState) : BaseState × List Invocation :=
  if s.state = .after then (s, [(cb, s.stop_data)])
  else ({ s with stop_callbacks := s.stop_callbacks ++ [cb] }, [])

/-- The SSHLauncher traits involved in the location-sync handlers. -/
structure SSHState where
  user : String
  hostname : String
  location : String
deriving DecidableEq, Repr

/-- Assignment to the `hostname` trait.  Traitlets fire `_hostname_changed`
only when the value actually changes; the handler sets
`location = user@new` when `self.user` is non-empty, else `location = new`. -/
def hostname_set (new : String) (s : SSHState) : SSHState :=
  if new = s.hostname then s
  else
    let s1 := { s with hostname := new }
    if s1.user ≠ "" then { s1 with location := s1.user ++ "@" ++ new }
    else { s1 with location := new }

/-- Assignment to the `user` trait.  `_user_changed` sets
`location = '%s@%s' % (new, self.hostname)` unconditionally. -/
def user_set (new : String) (s : SSHState) : SSHState :=
  if new = s.user then s
  else { s with user := new, location := new ++ "@" ++ s.hostname }

/-- The launcher variants the claims quantify over. -/
inductive Variant
  | localProc
  | mpiExec
  | ssh
  | winhpc
  | batchSys
deriving DecidableEq, Repr

/-- Variants whose `start`/`stop`/`signal` come from LocalProcessLauncher
(MPIExecLauncher and SSHLauncher subclass it and delegate to its start). -/
def localFam : Variant → Bool
  | .localProc => true
  | .mpiExec => true
  | .ssh => true
  | .winhpc => false
  | .batchSys => false

/-- Full launcher state: the BaseLauncher fields plus the process handle of
local launchers and the `job_id` attribute of batch/WinHPC launchers
(`none` models the attribute not existing yet). -/
structure LauncherSt where
  base : BaseState
  pid : Option Nat
  job_id : Option String
deriving DecidableEq, Repr

/-- A fresh launcher of any variant. -/
def initLauncher : LauncherSt :=
  { base := initBase, pid := none, job_id := none }

/-- Errors raised by launcher operations. -/
inductive LErr
  | processStateError
  | launcherError
  | attributeError
  | notImplementedError
deriving DecidableEq, Repr

/-- `parse_job_id`: `re.search(r'\d+', output).group()`, i.e. the leftmost
maximal run of digits of the submit output; no digits means LauncherError. -/
def parseJobId (out : String) : Option String :=
  let l := out.toList.dropWhile (fun c => !c.isDigit)
  if l = [] then none else some (String.mk (l.takeWhile Char.isDigit))

/-- Public operations of the launcher lifecycle.  Oracle data rides on the
operation: the pid Popen would return, the stdout of the submit/delete
command, whether the WinHPC cancel command succeeded, the callback being
registered, the exit code the periodic poll observes. -/
inductive LOp
  | start (pid : Nat) (submitOutput : String)
  | stop (deleteOutput : String) (cancelOk : Bool)
  | signal (sig : Nat)
  | interruptThenKill
  | onStop (cb : Nat)
  | procExit (code : Int)
deriving DecidableEq, Repr

/-- WindowsHPCLauncher.stop swallows a failing cancel command and substitutes
this message for the output (modulo the %r quoting of the job id). -/
def cancelFailMsg (j : String) : String :=
  "The job already appears to be stoppped: " ++ j

/-- One launcher operation.  Result: the exception raised (if any), the new
launcher state, and the stop-callback invocations performed.

Per the source:
* LocalProcessLauncher.start checks `state == 'before'` and otherwise raises
  ProcessStateError; on success Popen runs and `notify_start(pid)` fires.
* BatchSystemLauncher.start and WindowsHPCLauncher.start have NO state
  check: they render/submit, parse the job id (LauncherError when the digit
  regex finds nothing) and call `notify_start(job_id)` from any state.
* LocalProcessLauncher.stop = interrupt_then_kill: sends SIGINT through the
  state-guarded `signal` and schedules a delayed SIGKILL, again through the
  guarded `signal`; no launcher field changes in any state.
* Batch/WinHPC stop reads `self.job_id`, which does not exist before the
  first successful start (AttributeError), runs the delete/cancel command
  (WinHPC substitutes `cancelFailMsg` when cancel fails) and calls
  `notify_stop` -- in any state.
* `signal` is guarded by `state == 'running'` in LocalProcessLauncher and
  SSHLauncher and never mutates launcher fields; batch/WinHPC inherit
  BaseLauncher.signal which raises NotImplementedError.
* Batch/WinHPC launchers have no `interrupt_then_kill` attribute at all
  (it is defined on LocalProcessLauncher), so calling it is AttributeError.
* `procExit` is the periodic poll observing a non-null exit status; the
  poller only runs between notify_start and notify_stop, i.e. in 'running'. -/
def step (v : Variant) (s : LauncherSt) : LOp → Option LErr × LauncherSt × List Invocation
  | .onStop cb =>
      let r := on_stop cb s.base
      (none, { s with base := r.1 }, r.2)
  | .start p out =>
      if localFam v then
        if s.base.state = .before then
          (none, { s with base := notify_start (.pid p) s.base, pid := some p }, [])
        else (some .processStateError, s, [])
      else
        match parseJobId out with
        | none => (some .launcherError, s, [])
        | some j =>
            (none, { s with base := notify_start (.jobId j) s.base, job_id := some j }, [])
  | .stop out cancelOk =>
      if localFam v then (none, s, [])
      else
        match s.job_id with
        | none => (some .attributeError, s, [])
        | some j =>
            let o := if v = .winhpc ∧ ¬cancelOk then cancelFailMsg j else out
            let r := notify_stop (.jobStop j o) s.base
            (none, { s with base := r.1 }, r.2)
  | .signal _ =>
      if localFam v then (none, s, [])
      else (some .notImplementedError, s, [])
  | .interruptThenKill =>
      if localFam v then (none, s, [])
      else (some .attributeError, s, [])
  | .procExit c =>
      if localFam v then
        if s.base.state = .running then
          let r := notify_stop (.procExit c (s.pid.getD 0)) s.base
          (none, { s with base := r.1 }, r.2)
        else (none, s, [])
      else (none, s, [])

/-- Run a sequence of operations, keeping the state thread. -/
def run (v : Variant) (s : LauncherSt) (ops : List LOp) : LauncherSt :=
  ops.foldl (fun t op => (step v t op).2.1) s

end IPyLaunch

namespace IPyKernel

/-- Values appearing in decoded message content where the kernel inspects
them: `content.get('msg_ids', None)` can yield None, a single id string, or
a list of id strings. -/
inductive PyVal
  | pynone
  | pystr (s : String)
  | pylist (l : List String)
deriving DecidableEq, Repr

/-- Python truthiness of such a value (`if not msg_ids: ...`). -/
def pyFalsy : PyVal → Bool
  | .pynone => true
  | .pystr s => s = ""
  | .pylist l => l = []

/-- Opaque Python objects (function, args, kwargs, results...) -- their
identity is all the kernel-level properties depend on. -/
abbrev Obj := Nat

/-- A namespace / dict with string keys, in insertion order. -/
abbrev NS := List (String × Obj)

/-- Association-list lookup (dict subscript / `.get`). -/
def assocFind {α : Type} : List (String × α) → String → Option α
  | [], _ => none
  | (k1, v) :: rest, k => if k1 = k then some v else assocFind rest k

/-- Dict store: updating an existing key keeps its position, a fresh key is
appended (CPython dict semantics). -/
def assocSet {α : Type} : List (String × α) → String → α → List (String × α)
  | [], k, v => [(k, v)]
  | (k1, v1) :: rest, k, v =>
      if k1 = k then (k, v) :: rest else (k1, v1) :: assocSet rest k v

/-- `dict.update(other)`: items of `other` stored in order. -/
def assocUpdate {α : Type} (m : List (String × α)) (kvs : List (String × α)) :
    List (String × α) :=
  kvs.foldl (fun a kv => assocSet a kv.1 kv.2) m

/-- `dict.pop(key)` with no default: `none` models the KeyError on a missing
key; otherwise every binding of the key is removed (a dict has at most one). -/
def assocPop {α : Type} (m : List (String × α)) (k : String) :
    Option (List (String × α)) :=
  if (assocFind m k).isSome then some (m.filter (fun kv => !(kv.1 == k))) else none

/-- A decoded message as the kernel handlers see it: identities stripped by
the session, header giving msg_id and msg_type, typed content. -/
structure Msg where
  msg_id : String
  msg_type : String
  content : List (String × PyVal)
  identities : List String
deriving DecidableEq, Repr

/-- One `session.send` call: destination stream, msg_type, reply content
(flat string pairs suffice for the replies the claims mention), parent
message and routing identities. -/
structure Send where
  stream : String
  msg_type : String
  content : List (String × String)
  parent : Option Msg
  ident : List String
deriving DecidableEq, Repr

/-- Externally visible kernel actions. -/
inductive KEffect
  | send (m : Send)
  | abortQueuesCall
deriving DecidableEq, Repr

/-- Exceptions escaping a handler. -/
inductive KErr
  | typeError
deriving DecidableEq, Repr

/-- The kernel state the claims touch: the abort set, the user namespace and
the engine id (for the iopub routing `engine.<int_id>`). -/
structure KState where
  aborted : Finset String
  user_ns : NS
  int_id : Int
deriving DecidableEq

/-- `self.prefix = "engine.%s" % self.int_id`. -/
def enginePfx (k : KState) : String :=
  "engine." ++ toString k.int_id

/-- The shell handler table keys built in `__init__`. -/
def shellTypes : List String :=
  ["execute_request", "complete_request", "apply_request", "clear_request"]

/-- `msg_type.split('_')[0]`: the part before the first underscore. -/
def splitHead (s : String) : String :=
  (s.splitOn ("_")).headD ("")

/-- What dispatch_queue decided to do after the abort check. -/
inductive DispatchAct
  | abortedReply
  | handled (msg_type : String)
  | unknownType
deriving DecidableEq, Repr

/-- `dispatch_queue` after identity stripping and successful unpacking
(decode failures are logged and dropped before this point): if the msg_id is
in `aborted`, remove it and reply `<head>_reply {status: aborted}` to the
requester without invoking any handler; otherwise look up the shell handler
(unknown types are logged and dropped). -/
def dispatch_queue (k : KState) (stream : String) (idents : List String) (msg : Msg) :
    KState × List KEffect × DispatchAct :=
  if msg.msg_id ∈ k.aborted then
    ({ k with aborted := k.aborted.erase msg.msg_id },
     [.send { stream := stream, msg_type := splitHead msg.msg_type ++ "_reply",
              content := [("status", "aborted")], parent := some msg, ident := idents }],
     .abortedReply)
  else if msg.msg_type ∈ shellTypes then (k, [], .handled msg.msg_type)
  else (k, [], .unknownType)

/-- `abort_request(stream, ident, parent)`:
`msg_ids = parent['content'].get('msg_ids', None)`; a bare string is wrapped
in a list; falsy msg_ids triggers `abort_queues()`; then `for mid in
msg_ids` adds each id -- iterating None raises TypeError there, so the
`abort_reply {status: ok}` at the end is only reached otherwise. -/
def abort_request (k : KState) (stream : String) (ident : List String) (parent : Msg) :
    Option KErr × KState × List KEffect :=
  let msg_ids0 := (assocFind parent.content ("msg_ids")).getD PyVal.pynone
  let msg_ids :=
    match msg_ids0 with
    | .pystr s => PyVal.pylist [s]
    | v => v
  let effs : List KEffect := if pyFalsy msg_ids then [.abortQueuesCall] else []
  match msg_ids with
  | .pynone => (some .typeError, k, effs)
  | .pystr s =>
      -- unreachable: a string was wrapped above; Python would iterate it
      (none, { k with aborted := insert s k.aborted },
       effs ++ [.send { stream := stream, msg_type := "abort_reply",
                        content := [("status", "ok")], parent := some parent, ident := ident }])
  | .pylist l =>
      (none, { k with aborted := l.foldl (fun a m => insert m a) k.aborted },
       effs ++ [.send { stream := stream, msg_type := "abort_reply",
                        content := [("status", "ok")], parent := some parent, ident := ident }])

/-- Outcome of compiling and `exec`-ing user code against `user_ns`: the
namespace afterwards, plus the wrapped exception content when it raised
(`wrap_exception` always carries `status: error`). -/
inductive ExecOut
  | ok (ns1 : NS)
  | exc (ns1 : NS) (content : List (String × String))

/-- `execute_request`: missing `content['code']` is caught, logged and the
handler returns -- nothing is broadcast, nothing is replied, nothing runs.
Otherwise: broadcast `pyin {code}` on iopub, run the code (oracle
`compileExec`), on failure broadcast `pyerr` and use the exception content as
reply content, reply `execute_reply`, and call `abort_queues()` when the
reply status is 'error'. -/
def execute_request (k : KState) (stream : String) (ident : List String) (parent : Msg)
    (compileExec : NS → ExecOut) : KState × List KEffect :=
  match assocFind parent.content ("code") with
  | none => (k, [])
  | some codeVal =>
      let code := match codeVal with
        | .pystr s => s
        | .pynone => "None"
        | .pylist _ => ""
      let pyin : KEffect := .send ⟨"iopub", "pyin", [("code", code)], some parent,
        [enginePfx k ++ ".pyin"]⟩
      match compileExec k.user_ns with
      | .ok ns1 =>
          ({ k with user_ns := ns1 },
           [pyin, .send { stream := stream, msg_type := "execute_reply",
                          content := [("status", "ok")], parent := some parent, ident := ident }])
      | .exc ns1 c =>
          let tail := if (assocFind c ("status")).getD ("") = ("error") then
              [KEffect.abortQueuesCall] else []
          ({ k with user_ns := ns1 },
           [pyin,
            .send { stream := "iopub", msg_type := "pyerr", content := c,
                    parent := some parent, ident := [enginePfx k ++ ".pyerr"] },
            .send { stream := stream, msg_type := "execute_reply", content := c,
                    parent := some parent, ident := ident }] ++ tail)

/-- The synthetic-name prefix of apply_request:
`"_" + str(msg_id).replace("-","") + "_"`. -/
def applyPfx (msg_id : String) : String :=
  "_" ++ String.mk (msg_id.toList.filter (fun c => !(c == '-'))) ++ "_"

/-- The four synthetic names bound around the user call. -/
def applyNames (msg_id : String) : List String :=
  [applyPfx msg_id ++ "f", applyPfx msg_id ++ "args",
   applyPfx msg_id ++ "kwargs", applyPfx msg_id ++ "result"]

/-- The temporary bindings `ns` built by apply_request (result preset to an
arbitrary `None` object, here 0). -/
def applyBindings (msg_id : String) (f args kwargs : Obj) : List (String × Obj) :=
  [(applyPfx msg_id ++ "f", f), (applyPfx msg_id ++ "args", args),
   (applyPfx msg_id ++ "kwargs", kwargs), (applyPfx msg_id ++ "result", 0)]

/-- The `finally` cleanup loop: `for key in ns.keys(): working.pop(key)`.
A KeyError from `pop` (missing key) aborts the loop; the Bool reports it. -/
def popKeys : NS → List String → NS × Bool
  | m, [] => (m, false)
  | m, key :: rest =>
      match assocPop m key with
      | none => (m, true)
      | some m1 => popKeys m1 rest

/-- `apply_request`.  Oracles: `unpackRes` is `unpack_apply_message` (which
may raise), `execOut` is the `exec` of
`_<id>_result = _<id>_f(*_<id>_args, **_<id>_kwargs)` returning the
namespace it leaves behind and whether it raised, `excContent` is the
wrapped exception content used on any failure, `serialize` packs the result.
Faithful shape: flush; extract content/buffers/msg_id (failures return with
nothing sent); bind the four names; exec; read the result; `finally` pop the
four names (KeyError aborts the pops and joins the exception path); on any
exception broadcast `pyerr` and reply the exception content with empty
buffers, else reply ok with the packed result. -/
def apply_request (k : KState) (stream : String) (ident : List String) (parent : Msg)
    (unpackRes : Except Unit (Obj × Obj × Obj))
    (execOut : NS → NS × Bool)
    (excContent : List (String × String))
    (serialize : Obj → String) : KState × List KEffect :=
  match unpackRes with
  | .error _ =>
      (k,
       [.send { stream := "iopub", msg_type := "pyerr", content := excContent,
                parent := some parent, ident := [enginePfx k ++ ".pyerr"] },
        .send { stream := stream, msg_type := "apply_reply", content := excContent,
                parent := some parent, ident := ident }])
  | .ok (f, args, kwargs) =>
      let working1 := assocUpdate k.user_ns (applyBindings parent.msg_id f args kwargs)
      let r := execOut working1
      let result := assocFind r.1 (applyPfx parent.msg_id ++ "result")
      let cleaned := popKeys r.1 (applyNames parent.msg_id)
      if r.2 || cleaned.2 then
        ({ k with user_ns := cleaned.1 },
         [.send { stream := "iopub", msg_type := "pyerr", content := excContent,
                  parent := some parent, ident := [enginePfx k ++ ".pyerr"] },
          .send { stream := stream, msg_type := "apply_reply", content := excContent,
                  parent := some parent, ident := ident }])
      else
        ({ k with user_ns := cleaned.1 },
         [.send { stream := stream, msg_type := "apply_reply",
                  content := [("status", "ok"), ("result", serialize (result.getD 0))],
                  parent := some parent, ident := ident }])

end IPyKernel

namespace IPyBatch

/-- Regular expressions, enough for the batch-launcher patterns: character
classes, sequencing, alternation, repetition. -/
inductive RE
  | emp
  | eps
  | cls (p : Char → Bool)
  | seq (a b : RE)
  | alt (a b : RE)
  | star (a : RE)

/-- Does the regex accept the empty string. -/
def nullable : RE → Bool
  | .emp => false
  | .eps => true
  | .cls _ => false
  | .seq a b => nullable a && nullable b
  | .alt a b => nullable a || nullable b
  | .star _ => true

/-- Language-preserving smart sequencing (keeps derivative terms small). -/
def mkSeq : RE → RE → RE
  | .emp, _ => .emp
  | .eps, b => b
  | a, .emp => .emp
  | a, .eps => a
  | a, b => .seq a b

/-- Language-preserving smart alternation. -/
def mkAlt : RE → RE → RE
  | .emp, b => b
  | a, .emp => a
  | a, b => .alt a b

/-- Brzozowski derivative. -/
def deriv : RE → Char → RE
  | .emp, _ => .emp
  | .eps, _ => .emp
  | .cls p, c => if p c then .eps else .emp
  | .seq a b, c =>
      if nullable a then mkAlt (mkSeq (deriv a c) b) (deriv b c)
      else mkSeq (deriv a c) b
  | .alt a b, c => mkAlt (deriv a c) (deriv b c)
  | .star a, c => mkSeq (deriv a c) (.star a)

/-- Whole-string match. -/
def matchesL : RE → List Char → Bool
  | r, [] => nullable r
  | r, c :: cs => matchesL (deriv r c) cs

/-- Does the regex match some leading segment of the string. -/
def matchesHere : RE → List Char → Bool
  | r, [] => nullable r
  | r, c :: cs => nullable r || matchesHere (deriv r c) cs

/-- `re.search` truthiness: the regex matches somewhere in the string. -/
def reSearch (r : RE) : List Char → Bool
  | [] => nullable r
  | c :: cs => matchesHere r (c :: cs) || reSearch r cs

/-- Sequence a list of regexes. -/
def seqL (l : List RE) : RE :=
  l.foldr .seq .eps

/-- The literal regex for a string. -/
def strRE (s : String) : RE :=
  seqL (s.toList.map (fun c => RE.cls (fun c1 => c1 == c)))

/-- One-or-more. -/
def rePlus (r : RE) : RE :=
  .seq r (.star r)

/-- Zero-or-one. -/
def reOpt (r : RE) : RE :=
  .alt r .eps

/-- Python `\w` (ASCII range; the batch templates and regexes are ASCII). -/
def isWordChar (c : Char) : Bool :=
  c.isAlphanum || c == '_'

/-- Python `\W`. -/
def isNonWord (c : Char) : Bool :=
  !(isWordChar c)

/-- PBS vs SGE flavor of BatchSystemLauncher. -/
inductive BatchVariant
  | pbs
  | sge
deriving DecidableEq, Repr

/-- `job_array_regexp`: PBS `#PBS\W+-t\W+[\w\d\-\$]+`, SGE `#\$\W+\-t`. -/
def job_array_regexp : BatchVariant → RE
  | .pbs => seqL [strRE ("#PBS"), rePlus (.cls isNonWord), strRE ("-t"),
      rePlus (.cls isNonWord),
      rePlus (.cls (fun c => isWordChar c || c.isDigit || c == '-' || c == '$'))]
  | .sge => seqL [strRE ("#$"), rePlus (.cls isNonWord), strRE ("-t")]

/-- `queue_regexp`: PBS `#PBS\W+-q\W+\$?\w+`, SGE `#\$\W+-q\W+\$?\w+`. -/
def queue_regexp : BatchVariant → RE
  | .pbs => seqL [strRE ("#PBS"), rePlus (.cls isNonWord), strRE ("-q"),
      rePlus (.cls isNonWord), reOpt (.cls (fun c => c == '$')),
      rePlus (.cls isWordChar)]
  | .sge => seqL [strRE ("#$"), rePlus (.cls isNonWord), strRE ("-q"),
      rePlus (.cls isNonWord), reOpt (.cls (fun c => c == '$')),
      rePlus (.cls isWordChar)]

/-- `job_array_template`. -/
def job_array_template : BatchVariant → List Char
  | .pbs => ("#PBS -t 1-{n}").toList
  | .sge => ("#$ -t 1-{n}").toList

/-- `queue_template`. -/
def queue_template : BatchVariant → List Char
  | .pbs => ("#PBS -q {queue}").toList
  | .sge => ("#$ -q {queue}").toList

/-- `template.split('\n', 1)`: `none` when the template has no newline (in
which case the two-target unpacking in the source raises ValueError). -/
def splitFirstNl (l : List Char) : Option (List Char × List Char) :=
  if '\n' ∈ l then
    some (l.takeWhile (fun c => c ≠ '\n'), (l.dropWhile (fun c => c ≠ '\n')).tail)
  else none

/-- Insert `line` right after the first line of `tmpl`:
`'\n'.join([firstline, line, rest])`. -/
def injectLine (tmpl line : List Char) : Option (List Char) :=
  match splitFirstNl tmpl with
  | none => none
  | some (firstline, rest) => some (firstline ++ '\n' :: (line ++ '\n' :: rest))

/-- Batch-launcher state touched by `write_batch_script`: the (mutable!)
`batch_template` trait, the contents of `batch_template_file` when that
trait is set, the `queue` trait, the rendering `context` dict and the
subclass's `default_template`.  Template text is `List Char`. -/
structure BatchState where
  batch_template : List Char
  batch_template_file : Option (List Char)
  queue : List Char
  context : List (String × List Char)
  default_template : List Char
deriving DecidableEq, Repr

/-- Association-list find, as in the kernel model but for `List Char` values. -/
def ctxFind : List (String × List Char) → String → Option (List Char)
  | [], _ => none
  | (k1, v) :: rest, k => if k1 = k then some v else ctxFind rest k

/-- Dict store with CPython semantics (update in place, append fresh keys). -/
def ctxSet : List (String × List Char) → String → List Char → List (String × List Char)
  | [], k, v => [(k, v)]
  | (k1, v1) :: rest, k, v =>
      if k1 = k then (k, v) :: rest else (k1, v1) :: ctxSet rest k v

/-- `self.context['n'] = n; self.context['queue'] = self.queue`. -/
def mkCtx (st : BatchState) (n : Nat) : List (String × List Char) :=
  ctxSet (ctxSet st.context ("n") (toString n).toList) ("queue") st.queue

def renderAux (ctx : List (String × List Char)) : Nat → List Char → List Char
  | 0, _ => []
  | _, [] => []
  | fuel + 1, c :: rest =>
      if c = '{' then
        let name := rest.takeWhile (fun c1 => c1 ≠ '}')
        let rest2 := (rest.dropWhile (fun c1 => c1 ≠ '}')).tail
        (ctxFind ctx (String.mk name)).getD [] ++ renderAux ctx fuel rest2
      else c :: renderAux ctx fuel rest

/-- `formatter.format(batch_template, **context)` for the plain-name fields
the batch templates use: each `\x7bname\x7d` is replaced by the context value
(a missing key renders empty; the KeyError case plays no role in the claims,
which only need rendering to be a function of template and context).  The
fuel argument only bounds the recursion; each step consumes at least one
character, so `l.length` steps always complete the scan. -/
def render (ctx : List (String × List Char)) (l : List Char) : List Char :=
  renderAux ctx l.length l

/-- Template resolution priority: in-memory `batch_template`, else the
contents of `batch_template_file`, else `default_template`. -/
def resolveTemplate (st : BatchState) : List Char :=
  let ta :=
    if st.batch_template = [] then
      match st.batch_template_file with
      | some fc => fc
      | none => st.batch_template
    else st.batch_template
  if ta = [] then st.default_template else ta

/-- The job-array transformation: inject `job_array_template` after the
first line unless `job_array_regexp` already matches the template. -/
def jaStep (v : BatchVariant) (t : List Char) : Option (List Char) :=
  if reSearch (job_array_regexp v) t then some t
  else injectLine t (job_array_template v)

/-- The queue transformation: inject `queue_template` after the first line
when `queue` is non-empty and `queue_regexp` does not match. -/
def qStep (v : BatchVariant) (queue t : List Char) : Option (List Char) :=
  if queue ≠ [] ∧ ¬ reSearch (queue_regexp v) t then
    injectLine t (queue_template v)
  else some t

/-- `write_batch_script(n)`: store n and queue in the context, resolve the
template, apply the two injection steps (writing the transformed template
BACK into `self.batch_template`), render, and return the script text that is
written to `work_dir/batch_file_name`.  `none` models the ValueError of
splitting a newline-free template. -/
def write_batch_script (v : BatchVariant) (st : BatchState) (n : Nat) :
    Option (BatchState × List Char) :=
  match jaStep v (resolveTemplate st) with
  | none => none
  | some tc =>
      match qStep v st.queue tc with
      | none => none
      | some td =>
          some ({ st with batch_template := td, context := mkCtx st n },
                render (mkCtx st n) td)

/-- The adversarial PBS launcher configuration of the C9 counterexample: the
user-supplied `batch_template` already carries a job-array directive whose
`\W+` match spans the first newline. -/
def stC9 : BatchState :=
  { batch_template := ("#PBS\n-t 1\nx").toList,
    batch_template_file := none,
    queue := ("q").toList,
    context := [("profile_dir", ("/p").toList)],
    default_template := [] }

end IPyBatch

/-! ## Helper lemmas -/

namespace IPyLaunch

/-- The pop-drain loop yields the callback list reversed. -/
theorem drainPopAux_eq (l : List Nat) :
    ∀ n, l.length ≤ n → drainPopAux n l = l.reverse := by
  induction l using List.reverseRecOn with
  | nil => intro n hn; cases n <;> simp [drainPopAux]
  | append_singleton as a ih =>
      intro n hn
      cases n with
      | zero => simp at hn
      | succ m =>
          have hm : as.length ≤ m := by
            have : as.length + 1 ≤ m + 1 := by simpa using hn
            omega
          simp [drainPopAux, List.getLast?_concat, List.dropLast_concat, ih m hm]

theorem drainPop_eq_reverse (l : List Nat) : drainPop l = l.reverse :=
  drainPopAux_eq l l.length (Nat.le_refl _)

/-- For the LocalProcessLauncher family, every operation preserves the
'after' state: start fails the state check, stop/signal/interrupt change no
launcher field, on_stop fires inline, and the poll only acts in 'running'. -/
theorem step_after (v : Variant) (hv : localFam v = true) (s : LauncherSt)
    (hs : s.base.state = .after) (op : LOp) :
    ((step v s op).2.1).base.state = .after := by
  cases op <;> simp [step, hv, on_stop, notify_start, notify_stop, hs]

end IPyLaunch

namespace IPyKernel

/-- Cancel a common leading segment of equal strings. -/
theorem str_app_inj (a b c : String) (h : a ++ b = a ++ c) : b = c := by
  have h2 := congrArg String.data h
  simp only [String.data_append] at h2
  exact String.ext (List.append_cancel_left h2)

/-- The four synthetic apply names are pairwise distinct. -/
theorem applyNames_nodup (m : String) : (applyNames m).Nodup := by
  have key : ∀ (b c : String), b ≠ c → applyPfx m ++ b = applyPfx m ++ c → False :=
    fun b c hbc h => hbc (str_app_inj _ b c h)
  refine List.nodup_cons.mpr ⟨?_, List.nodup_cons.mpr ⟨?_,
    List.nodup_cons.mpr ⟨?_, List.nodup_singleton _⟩⟩⟩
  · intro hmem
    simp only [applyNames, List.mem_cons, List.not_mem_nil, or_false] at hmem
    rcases hmem with h | h | h
    exacts [key _ _ (by decide) h, key _ _ (by decide) h, key _ _ (by decide) h]
  · intro hmem
    simp only [applyNames, List.mem_cons, List.not_mem_nil, or_false] at hmem
    rcases hmem with h | h
    exacts [key _ _ (by decide) h, key _ _ (by decide) h]
  · intro hmem
    simp only [applyNames, List.mem_cons, List.not_mem_nil, or_false] at hmem
    exact key _ _ (by decide) hmem

/-- Popping a key removes it. -/
theorem assocFind_filter_self {α : Type} (m : List (String × α)) (k : String) :
    assocFind (m.filter (fun kv => !(kv.1 == k))) k = none := by
  induction m with
  | nil => simp [assocFind]
  | cons kv rest ih =>
      by_cases h : kv.1 = k
      · simpa [List.filter_cons, h] using ih
      · simpa [List.filter_cons, h, assocFind] using ih

/-- Popping a key leaves the other keys untouched. -/
theorem assocFind_filter_ne {α : Type} (m : List (String × α)) (k k1 : String)
    (hne : k1 ≠ k) :
    assocFind (m.filter (fun kv => !(kv.1 == k))) k1 = assocFind m k1 := by
  induction m with
  | nil => simp
  | cons kv rest ih =>
      have hks : k ≠ k1 := fun hx => hne hx.symm
      by_cases h : kv.1 = k
      · have h1 : kv.1 ≠ k1 := by rw [h]; exact hks
        simp [List.filter_cons, h, assocFind, h1, hks, ih]
      · by_cases h2 : kv.1 = k1 <;> simp [List.filter_cons, h, assocFind, h2, hne, hks, ih]

/-- The pop loop never resurrects a key that is already absent. -/
theorem popKeys_find_none (keys : List String) (m : NS) (k : String)
    (h : assocFind m k = none) : assocFind (popKeys m keys).1 k = none := by
  induction keys generalizing m with
  | nil => simpa [popKeys]
  | cons key rest ih =>
      by_cases hk : (assocFind m key).isSome
      · have : assocFind (m.filter (fun kv => !(kv.1 == key))) k = none := by
          by_cases hkk : k = key
          · subst hkk; exact assocFind_filter_self m k
          · rw [assocFind_filter_ne m key k hkk]; exact h
        simpa [popKeys, assocPop, hk] using ih _ this
      · simpa [popKeys, assocPop, hk] using h

/-- When the keys are distinct and all present, the cleanup loop finishes
without a KeyError and removes every key. -/
theorem popKeys_clean (keys : List String) (m : NS) (hnd : keys.Nodup)
    (hmem : ∀ k ∈ keys, (assocFind m k).isSome) :
    (popKeys m keys).2 = false ∧ ∀ k ∈ keys, assocFind (popKeys m keys).1 k = none := by
  induction keys generalizing m with
  | nil => simp [popKeys]
  | cons key rest ih =>
      rw [List.nodup_cons] at hnd
      have hk : (assocFind m key).isSome := hmem key (List.mem_cons_self key rest)
      have hstep : popKeys m (key :: rest) =
          popKeys (m.filter (fun kv => !(kv.1 == key))) rest := by
        simp [popKeys, assocPop, hk]
      have hrest : ∀ k ∈ rest, (assocFind (m.filter (fun kv => !(kv.1 == key))) k).isSome := by
        intro k hkr
        have hne : k ≠ key := fun hx => hnd.1 (hx ▸ hkr)
        rw [assocFind_filter_ne m key k hne]
        exact hmem k (List.mem_cons_of_mem _ hkr)
      have hind := ih _ hnd.2 hrest
      refine ⟨by rw [hstep]; exact hind.1, ?_⟩
      intro k hkmem
      rcases List.mem_cons.mp hkmem with hkeq | hkr
      · subst hkeq
        rw [hstep]
        exact popKeys_find_none rest _ k (assocFind_filter_self m k)
      · rw [hstep]; exact hind.2 k hkr

end IPyKernel

namespace IPyBatch

/-- A nullable regex matches at any position. -/
theorem matchesHere_of_nullable (r : RE) (h : nullable r = true) :
    ∀ l, matchesHere r l = true := by
  intro l
  cases l <;> simp [matchesHere, h]

/-- A full match of a segment gives a match-from-here of any extension. -/
theorem matchesHere_app (m : List Char) (r : RE) (b : List Char)
    (h : matchesL r m = true) : matchesHere r (m ++ b) = true := by
  induction m generalizing r with
  | nil => exact matchesHere_of_nullable r (by simpa [matchesL] using h) b
  | cons c cs ih =>
      have h1 : matchesL (deriv r c) cs = true := by simpa [matchesL] using h
      simp [matchesHere, ih (deriv r c) h1]

/-- A match from the start is found by the search. -/
theorem reSearch_of_here (r : RE) (l : List Char) (h : matchesHere r l = true) :
    reSearch r l = true := by
  cases l with
  | nil => simpa [reSearch, matchesHere] using h
  | cons c cs => simp [reSearch, h]

/-- Search ignores a prepended segment. -/
theorem reSearch_app_left (r : RE) (a l : List Char) (h : reSearch r l = true) :
    reSearch r (a ++ l) = true := by
  induction a with
  | nil => simpa
  | cons x xs ih => simp [reSearch, ih]

/-- A fully matching segment anywhere inside the string makes search succeed. -/
theorem reSearch_mid (r : RE) (a m b : List Char) (h : matchesL r m = true) :
    reSearch r (a ++ (m ++ b)) = true := by
  cases m with
  | nil =>
      have hn : nullable r = true := by simpa [matchesL] using h
      apply reSearch_app_left
      exact reSearch_of_here r b (matchesHere_of_nullable r hn b)
  | cons c cs =>
      apply reSearch_app_left
      exact reSearch_of_here r _ (matchesHere_app (c :: cs) r b h)

/-- Neither flavor's job-array regex matches the empty template. -/
theorem nullable_ja_false (v : BatchVariant) : nullable (job_array_regexp v) = false := by
  cases v <;> decide

/-- The injected queue line itself always contains a queue-regex match
(`#PBS -q \x7bqueue` / `#$ -q \x7bqueue`: `\W+` absorbs the space and the open
brace, `\w+` matches the word `queue`). -/
theorem reSearch_q_inject (v : BatchVariant) (a b : List Char) :
    reSearch (queue_regexp v) (a ++ (queue_template v ++ b)) = true := by
  cases v
  · have hm : matchesL (queue_regexp .pbs) (("#PBS -q \x7bqueue").toList) = true := by decide
    have hsplit : queue_template .pbs = ("#PBS -q \x7bqueue").toList ++ ['}'] := by decide
    rw [hsplit, List.append_assoc]
    exact reSearch_mid _ a _ _ hm
  · have hm : matchesL (queue_regexp .sge) (("#$ -q \x7bqueue").toList) = true := by decide
    have hsplit : queue_template .sge = ("#$ -q \x7bqueue").toList ++ ['}'] := by decide
    rw [hsplit, List.append_assoc]
    exact reSearch_mid _ a _ _ hm

/-- After the queue step with a non-empty queue, the stored template always
matches the queue regex: either it already did, or the line just injected
provides the match. -/
theorem qStep_post (v : BatchVariant) (q t t1 : List Char) (hq : q ≠ [])
    (h : qStep v q t = some t1) : reSearch (queue_regexp v) t1 = true := by
  by_cases hs : reSearch (queue_regexp v) t = true
  · have ht : t = t1 := by simpa [qStep, hs] using h
    rw [← ht]; exact hs
  · have hinj : injectLine t (queue_template v) = some t1 := by
      simpa [qStep, hq, hs] using h
    unfold injectLine at hinj
    cases hsp : splitFirstNl t with
    | none => rw [hsp] at hinj; simp at hinj
    | some p =>
        rw [hsp] at hinj
        simp only [Option.some.injEq] at hinj
        rw [← hinj, List.append_cons p.1 '\n' (queue_template v ++ '\n' :: p.2)]
        rw [show queue_template v ++ '\n' :: p.2 = queue_template v ++ ('\n' :: p.2) from rfl]
        exact reSearch_q_inject v (p.1 ++ ['\n']) ('\n' :: p.2)

/-- An in-memory template short-circuits the file/default resolution. -/
theorem resolveTemplate_ne (st : BatchState) (h : st.batch_template ≠ []) :
    resolveTemplate st = st.batch_template := by
  simp [resolveTemplate, h]

/-- `ctxSet` stores its key. -/
theorem ctxFind_ctxSet_self (m : List (String × List Char)) (k : String) (v : List Char) :
    ctxFind (ctxSet m k v) k = some v := by
  induction m with
  | nil => simp [ctxSet, ctxFind]
  | cons kv rest ih =>
      by_cases h : kv.1 = k
      · simp [ctxSet, h, ctxFind]
      · simp [ctxSet, h, ctxFind, ih]

/-- `ctxSet` leaves other keys alone. -/
theorem ctxFind_ctxSet_ne (m : List (String × List Char)) (k k1 : String)
    (v : List Char) (h : k1 ≠ k) : ctxFind (ctxSet m k v) k1 = ctxFind m k1 := by
  have h3 : ¬ k = k1 := fun hx => h hx.symm
  induction m with
  | nil => simp [ctxSet, ctxFind, h3]
  | cons kv rest ih =>
      by_cases h2 : kv.1 = k
      · simp [ctxSet, h2, ctxFind, h3, h2 ▸ h3]
      · by_cases h4 : kv.1 = k1 <;> simp [ctxSet, h2, ctxFind, h4, h, h3, ih]

/-- Storing the value a key already has is the identity. -/
theorem ctxSet_of_find (m : List (String × List Char)) (k : String) (v : List Char)
    (h : ctxFind m k = some v) : ctxSet m k v = m := by
  induction m with
  | nil => simp [ctxFind] at h
  | cons kv rest ih =>
      obtain ⟨a, b⟩ := kv
      by_cases h2 : a = k
      · subst h2
        have hv : v = b := by
          have h5 := h
          simp [ctxFind] at h5
          exact h5.symm
        simp [ctxSet, hv]
      · have h3 : ctxFind rest k = some v := by simpa [ctxFind, h2] using h
        simp [ctxSet, h2, ih h3]

/-- Rebuilding the context with the same n and queue on the output of
`mkCtx` changes nothing. -/
theorem mkCtx_stable (st st1 : BatchState) (n : Nat)
    (hctx : st1.context = mkCtx st n) (hq : st1.queue = st.queue) :
    mkCtx st1 n = mkCtx st n := by
  unfold mkCtx
  rw [hctx, hq]
  have h1 : ctxFind (mkCtx st n) ("n") = some (toString n).toList := by
    unfold mkCtx
    rw [ctxFind_ctxSet_ne _ _ _ _ (by decide)]
    exact ctxFind_ctxSet_self _ _ _
  rw [show mkCtx st n = ctxSet (ctxSet st.context ("n") (toString n).toList)
    ("queue") st.queue from rfl] at h1 ⊢
  rw [ctxSet_of_find _ _ _ h1]
  exact ctxSet_of_find _ _ _ (ctxFind_ctxSet_self _ _ _)

end IPyBatch

/-! ## Claim theorems -/

namespace IPyLaunch

/-- C1 (counterexample): register callback 0 and then callback 1 on a fresh
launcher; `notify_stop` invokes them as [1, 0], the reverse of the
registration order [0, 1] the claim requires. -/
theorem C1_counterexample :
    ((notify_stop (.procExit 0 1) (on_stop 1 (on_stop 0 initBase).1).1).2).map Prod.fst
      = [1, 0] ∧ ([1, 0] : List Nat) ≠ [0, 1] := by
  decide

/-- C1 (amended): every callback registered before the transition to 'after'
is invoked exactly once by `notify_stop`, but in REVERSE registration order
(the drain loop pops from the end of the list); a later `notify_stop` finds
the drained list empty and invokes nothing, so stop/signal repetitions
cannot re-fire callbacks. -/
theorem C1_theorem (s : BaseState) (d d1 : StopData) (h : s.stop_callbacks.Nodup) :
    ((notify_stop d s).2).map Prod.fst = s.stop_callbacks.reverse ∧
    (∀ c ∈ s.stop_callbacks, (((notify_stop d s).2).map Prod.fst).count c = 1) ∧
    (notify_stop d1 (notify_stop d s).1).2 = [] := by
  have hfst : ((notify_stop d s).2).map Prod.fst = s.stop_callbacks.reverse := by
    simp only [notify_stop, drainPop_eq_reverse, List.map_map]
    simp [Function.comp_def]
  refine ⟨hfst, ?_, ?_⟩
  · intro c hc
    rw [hfst]
    have hmem : c ∈ s.stop_callbacks.reverse := List.mem_reverse.mpr hc
    have hnd : s.stop_callbacks.reverse.Nodup := List.nodup_reverse.mpr h
    exact List.count_eq_one_of_mem hnd hmem
  · simp [notify_stop, drainPop, drainPopAux]

end IPyLaunch

namespace IPyLaunch

/-- C1 (witness): for a launcher with callbacks [3, 7] registered,
`notify_stop` fires them as [7, 3], each once, and a second notify fires
nothing. -/
theorem C1_witness :
    ((notify_stop (.procExit 0 2)
        (⟨.running, some (.pid 2), none, [3, 7]⟩ : BaseState)).2).map Prod.fst
      = [3, 7].reverse ∧
    (∀ c ∈ [3, 7], (((notify_stop (.procExit 0 2)
        (⟨.running, some (.pid 2), none, [3, 7]⟩ : BaseState)).2).map Prod.fst).count c = 1) ∧
    (notify_stop (.procExit 0 2) (notify_stop (.procExit 0 2)
        (⟨.running, some (.pid 2), none, [3, 7]⟩ : BaseState)).1).2 = [] :=
  C1_theorem ⟨.running, some (.pid 2), none, [3, 7]⟩ (.procExit 0 2) (.procExit 0 2)
    (by decide)

/-- C4 (counterexample): a BatchSystemLauncher started, stopped (state
'after') and started again observes state 'running' after 'after' -- batch
start performs no state check. -/
theorem C4_counterexample :
    (run .batchSys initLauncher [.start 0 ("Job 7"), .stop ("done") true]).base.state
      = .after ∧
    (run .batchSys initLauncher
      [.start 0 ("Job 7"), .stop ("done") true, .start 0 ("Job 8")]).base.state
      = .running := by
  decide

/-- C4 (amended): for the LocalProcessLauncher family (local, MPI, SSH),
once state = 'after' every subsequent operation sequence stays in 'after':
start fails its state check, stop/signal/interrupt touch no launcher field,
on_stop fires inline, the poll only acts in 'running'.  WinHPC and batch
launchers are excluded: their unguarded start re-enters 'running'. -/
theorem C4_theorem (v : Variant) (hv : localFam v = true) (s : LauncherSt)
    (hs : s.base.state = .after) (ops : List LOp) :
    (run v s ops).base.state = .after := by
  induction ops generalizing s with
  | nil => simpa [run] using hs
  | cons op rest ih =>
      have h1 : run v s (op :: rest) = run v ((step v s op).2.1) rest := by
        simp [run]
      rw [h1]
      exact ih _ (step_after v hv s hs op)

/-- C4 (witness): an SSH launcher in 'after' stays in 'after' under a
start/stop/on_stop/poll sequence. -/
theorem C4_witness :
    (run .ssh
      (⟨⟨.after, some (.pid 9), some (.procExit 0 9), []⟩, some 9, none⟩ : LauncherSt)
      [.start 1 (""), .stop ("") true, .onStop 5, .procExit 0]).base.state = .after :=
  C4_theorem .ssh (by decide)
    ⟨⟨.after, some (.pid 9), some (.procExit 0 9), []⟩, some 9, none⟩ (by decide)
    [.start 1 (""), .stop ("") true, .onStop 5, .procExit 0]

/-- C5 (counterexample): a running BatchSystemLauncher accepts a second
start without ProcessStateError (its start has no state check), refuting the
claim for the batch variants. -/
theorem C5_counterexample :
    ((run .batchSys initLauncher [.start 0 ("Job 11")]).base.state = .running) ∧
    ((step .batchSys (run .batchSys initLauncher [.start 0 ("Job 11")])
        (.start 0 ("Job 12"))).1 = none) := by
  decide

/-- C5 (amended): for the LocalProcessLauncher family, start outside
'before' raises ProcessStateError and leaves the launcher unchanged, and
start in 'before' transitions to 'running'; BatchSystemLauncher and
WindowsHPCLauncher perform no state check: whenever the submit output
yields a job id, start succeeds and sets 'running' from ANY state. -/
theorem C5_theorem (v : Variant) (s : LauncherSt) (p : Nat) (out : String) :
    (localFam v = true → s.base.state ≠ .before →
       step v s (.start p out) = (some .processStateError, s, [])) ∧
    (localFam v = true → s.base.state = .before →
       (step v s (.start p out)).1 = none ∧
       (step v s (.start p out)).2.1.base.state = .running) ∧
    (localFam v = false → (parseJobId out).isSome →
       (step v s (.start p out)).1 = none ∧
       (step v s (.start p out)).2.1.base.state = .running) := by
  refine ⟨?_, ?_, ?_⟩
  · intro hv hs
    simp [step, hv, hs]
  · intro hv hs
    simp [step, hv, hs, notify_start]
  · intro hv hj
    cases hp : parseJobId out with
    | none => rw [hp] at hj; simp at hj
    | some j => simp [step, hv, hp, notify_start]

/-- C5 (witness): a fresh local launcher starts into 'running'. -/
theorem C5_witness :
    (step .localProc initLauncher (.start 5 (""))).1 = none ∧
    (step .localProc initLauncher (.start 5 (""))).2.1.base.state = .running :=
  (C5_theorem .localProc initLauncher 5 ("")).2.1 (by decide) (by decide)

/-- C6 (counterexample): calling stop on a BatchSystemLauncher in state
'before' raises AttributeError (`self.job_id` does not exist yet) instead of
being the error-free no-op the claim requires. -/
theorem C6_counterexample :
    step .batchSys initLauncher (.stop ("") true) = (some .attributeError, initLauncher, []) := by
  decide

/-- C6 (amended): for the LocalProcessLauncher family, stop and signal (and
interrupt_then_kill) outside 'running' raise nothing and change no launcher
field.  Batch and WinHPC launchers are unguarded instead: stop before any
successful start raises AttributeError, and signal (inherited from
BaseLauncher) always raises NotImplementedError. -/
theorem C6_theorem (v : Variant) (s : LauncherSt) (out : String) (b : Bool) (sig : Nat) :
    (localFam v = true → s.base.state ≠ .running →
       step v s (.stop out b) = (none, s, []) ∧
       step v s (.signal sig) = (none, s, []) ∧
       step v s .interruptThenKill = (none, s, [])) ∧
    (localFam v = false → s.job_id = none →
       step v s (.stop out b) = (some .attributeError, s, [])) ∧
    (localFam v = false → step v s (.signal sig) = (some .notImplementedError, s, [])) := by
  refine ⟨?_, ?_, ?_⟩
  · intro hv _
    exact ⟨by simp [step, hv], by simp [step, hv], by simp [step, hv]⟩
  · intro hv hj
    simp [step, hv, hj]
  · intro hv
    simp [step, hv]

/-- C6 (witness): stop/signal/interrupt on a fresh SSH launcher (state
'before') return without error and leave it untouched. -/
theorem C6_witness :
    step .ssh initLauncher (.stop ("") true) = (none, initLauncher, []) ∧
    step .ssh initLauncher (.signal 2) = (none, initLauncher, []) ∧
    step .ssh initLauncher .interruptThenKill = (none, initLauncher, []) :=
  (C6_theorem .ssh initLauncher ("") true 2).1 (by decide) (by decide)

/-- C8 (counterexample): clearing the user of an SSHLauncher
(user 'alice' -> '') leaves `location = "@h"`, not the bare hostname "h" the
claim requires, because `_user_changed` formats `user@hostname`
unconditionally. -/
theorem C8_counterexample :
    (user_set ("") (⟨("alice"), ("h"), ("alice@h")⟩ : SSHState)).location
      = ("@h") ∧ ("@h" : String) ≠ ("h") := by
  decide

/-- C8 (amended): after an assignment that changes `hostname`, `location` is
`user@hostname` when the user is non-empty and the bare hostname otherwise;
after an assignment that changes `user`, `location` is `user@hostname`
UNCONDITIONALLY -- setting the user to the empty string yields
`"@" ++ hostname`, not the bare hostname.  (Assignments that do not change
the trait fire no handler and leave `location` untouched.) -/
theorem C8_theorem (s : SSHState) (u h : String) (hh : h ≠ s.hostname)
    (hu : u ≠ s.user) :
    (hostname_set h s).location = (if s.user = "" then h else s.user ++ "@" ++ h) ∧
    (user_set u s).location = u ++ "@" ++ s.hostname := by
  constructor
  · by_cases hus : s.user = "" <;> simp [hostname_set, hh, hus]
  · simp [user_set, hu]

/-- C8 (witness): on user='alice', hostname='h': changing the hostname to
'h2' recomputes location from the user, changing the user to 'bob' formats
user@hostname. -/
theorem C8_witness :
    (hostname_set ("h2") (⟨("alice"), ("h"), ("alice@h")⟩ : SSHState)).location
      = (if (⟨("alice"), ("h"), ("alice@h")⟩ : SSHState).user = ""
         then ("h2")
         else (⟨("alice"), ("h"), ("alice@h")⟩ : SSHState).user ++ "@" ++ ("h2")) ∧
    (user_set ("bob") (⟨("alice"), ("h"), ("alice@h")⟩ : SSHState)).location
      = ("bob") ++ "@" ++ (⟨("alice"), ("h"), ("alice@h")⟩ : SSHState).hostname :=
  C8_theorem ⟨("alice"), ("h"), ("alice@h")⟩ ("bob") ("h2") (by decide) (by decide)

end IPyLaunch

namespace IPyKernel

/-- C2 (code bug): an abort_request whose content has NO 'msg_ids' key makes
the handler call `abort_queues()` and then raise TypeError when
`for mid in msg_ids` iterates None -- the `abort_reply {status: ok}` the
claim (and the handler's own tail) promises is never sent. -/
theorem C2_theorem :
    abort_request ⟨∅, [], 0⟩ ("control") [("idA")]
        ⟨("mid1"), ("abort_request"), [], [("idA")]⟩
      = (some .typeError, ⟨∅, [], 0⟩, [.abortQueuesCall]) := by
  decide

/-- C3: a shell message whose msg_id is in the abort set when dispatch_queue
processes it gets the reply `<prefix before first underscore>_reply` with
content {status: aborted}, parented on the request and carrying the request
identities; no handler is invoked, and the msg_id leaves the abort set. -/
theorem C3_theorem (k : KState) (stream : String) (idents : List String) (msg : Msg)
    (h : msg.msg_id ∈ k.aborted) :
    dispatch_queue k stream idents msg =
      ({ k with aborted := k.aborted.erase msg.msg_id },
       [.send ⟨stream, splitHead msg.msg_type ++ "_reply", [(("status"), ("aborted"))],
          some msg, idents⟩],
       .abortedReply) ∧
    msg.msg_id ∉ ({ k with aborted := k.aborted.erase msg.msg_id } : KState).aborted := by
  constructor
  · simp [dispatch_queue, h]
  · exact Finset.not_mem_erase _ _

/-- C3 (witness): a concrete aborted execute_request is answered with
execute_reply {status: aborted} and removed from the set. -/
theorem C3_witness :
    dispatch_queue ⟨{("A")}, [], 0⟩ ("shell") [("id1")]
        ⟨("A"), ("execute_request"), [], [("id1")]⟩ =
      (⟨({("A")} : Finset String).erase ("A"), [], 0⟩,
       [.send ⟨("shell"), splitHead ("execute_request") ++ "_reply",
          [(("status"), ("aborted"))],
          some ⟨("A"), ("execute_request"), [], [("id1")]⟩, [("id1")]⟩],
       .abortedReply) ∧
    ("A") ∉ (⟨({("A")} : Finset String).erase ("A"), [], 0⟩ : KState).aborted :=
  C3_theorem ⟨{("A")}, [], 0⟩ ("shell") [("id1")]
    ⟨("A"), ("execute_request"), [], [("id1")]⟩ (by decide)

/-- C10: an execute_request without a 'code' key in its content is logged
and dropped: no pyin broadcast, no execute_reply, no abort, and the kernel
state (user_ns included) is unchanged. -/
theorem C10_theorem (k : KState) (stream : String) (ident : List String) (parent : Msg)
    (compileExec : NS → ExecOut)
    (h : assocFind parent.content ("code") = none) :
    execute_request k stream ident parent compileExec = (k, []) := by
  simp [execute_request, h]

/-- C10 (witness): a concrete codeless execute_request produces no effects
and leaves the kernel unchanged. -/
theorem C10_witness :
    execute_request ⟨∅, [((("x")), 5)], 0⟩ ("shell") [("id1")]
        ⟨("m1"), ("execute_request"), [(("silent"), .pystr ("1"))], [("id1")]⟩
        (fun n => .ok n)
      = (⟨∅, [((("x")), 5)], 0⟩, []) :=
  C10_theorem ⟨∅, [((("x")), 5)], 0⟩ ("shell") [("id1")]
    ⟨("m1"), ("execute_request"), [(("silent"), .pystr ("1"))], [("id1")]⟩
    (fun n => .ok n) (by decide)

/-- C7 (counterexample): if the applied user function itself deletes the
`_<id>_f` binding from user_ns, the cleanup loop's first `pop` raises
KeyError and the remaining synthetic names survive the request:
`_m_kwargs` is still bound afterwards.  The claim's unconditional cleanup
fails on the code. -/
theorem C7_counterexample :
    (assocFind (apply_request ⟨∅, [], 0⟩ ("shell") [] ⟨("m"), ("apply_request"), [], []⟩
        (.ok (1, 2, 3))
        (fun m => (m.filter (fun kv => !(kv.1 == ("_m_f"))), false))
        [(("status"), ("error"))] (fun _ => ("r"))).1.user_ns ("_m_kwargs")).isSome
      = true := by
  decide

/-- C7 (amended): provided the four synthetic names are not previously bound
and the executed call leaves all four bindings in place until the `finally`
cleanup (Python `dict.pop(key)` raises KeyError on a missing key, aborting
the loop), every apply_request -- deserialization failure, execution failure
or success alike -- ends with all four names absent from user_ns. -/
theorem C7_theorem (k : KState) (stream : String) (ident : List String) (parent : Msg)
    (unpackRes : Except Unit (Obj × Obj × Obj)) (execOut : NS → NS × Bool)
    (excContent : List (String × String)) (serialize : Obj → String)
    (hinit : ∀ nm ∈ applyNames parent.msg_id, assocFind k.user_ns nm = none)
    (hexec : ∀ f args kwargs, unpackRes = .ok (f, args, kwargs) →
       ∀ nm ∈ applyNames parent.msg_id,
         (assocFind (execOut (assocUpdate k.user_ns
            (applyBindings parent.msg_id f args kwargs))).1 nm).isSome) :
    ∀ nm ∈ applyNames parent.msg_id,
      assocFind (apply_request k stream ident parent unpackRes execOut excContent
        serialize).1.user_ns nm = none := by
  intro nm hnm
  cases hu : unpackRes with
  | error u =>
      simp only [apply_request]
      exact hinit nm hnm
  | ok t =>
      obtain ⟨f, args, kwargs⟩ := t
      have hpk := popKeys_clean (applyNames parent.msg_id)
        (execOut (assocUpdate k.user_ns (applyBindings parent.msg_id f args kwargs))).1
        (applyNames_nodup _) (hexec f args kwargs hu)
      simp only [apply_request]
      by_cases hc : ((execOut (assocUpdate k.user_ns
          (applyBindings parent.msg_id f args kwargs))).2 = true)
      · simp only [hc]
        simp only [Bool.true_or, if_pos]
        exact hpk.2 nm hnm
      · by_cases hp : ((popKeys (execOut (assocUpdate k.user_ns
            (applyBindings parent.msg_id f args kwargs))).1
            (applyNames parent.msg_id)).2 = true)
        · simp [hc, hp]
          exact hpk.2 nm hnm
        · simp [hc, hp]
          exact hpk.2 nm hnm

/-- C7 (witness): with an execution that keeps the bindings, the first
synthetic name of a concrete apply_request is gone afterwards. -/
theorem C7_witness :
    assocFind (apply_request ⟨∅, [], 0⟩ ("shell") [] ⟨("m"), ("apply_request"), [], []⟩
        (.ok (1, 2, 3)) (fun m => (m, false)) [] (fun _ => (""))).1.user_ns ("_m_f")
      = none :=
  C7_theorem ⟨∅, [], 0⟩ ("shell") [] ⟨("m"), ("apply_request"), [], []⟩ (.ok (1, 2, 3))
    (fun m => (m, false)) [] (fun _ => ("")) (by decide)
    (by
      intro f args kwargs hok nm hnm
      simp only [Except.ok.injEq, Prod.mk.injEq] at hok
      obtain ⟨h1, h2, h3⟩ := hok
      subst h1
      subst h2
      subst h3
      revert nm hnm
      decide)
    ("_m_f") (by decide)

end IPyKernel

namespace IPyBatch

/-- C9 (counterexample): on a PBS launcher whose user template is
"#PBS\n-t 1\nx" with queue "q", the first write leaves the job-array line
matched ACROSS the first newline, then injects the queue line between --
destroying the job-array match.  The second write re-injects the job-array
template, so the two calls write different scripts. -/
theorem C9_counterexample :
    (Option.bind (write_batch_script .pbs stC9 2)
        (fun p => write_batch_script .pbs p.1 2)).map Prod.snd
      ≠ (write_batch_script .pbs stC9 2).map Prod.snd := by
  decide

/-- C9 (amended): writing the batch script twice with the same n and context
is byte-identical PROVIDED the template stored by the first call still
matches `job_array_regexp` (automatic unless a pre-existing job-array match
straddled the first newline and a queue injection separated it); and the
injection steps never insert `job_array_template`/`queue_template` into a
template their regex already matches. -/
theorem C9_theorem (v : BatchVariant) (st st1 : BatchState) (n : Nat) (out1 : List Char)
    (h1 : write_batch_script v st n = some (st1, out1))
    (hja : reSearch (job_array_regexp v) st1.batch_template = true) :
    write_batch_script v st1 n = some (st1, out1) ∧
    (∀ t, reSearch (job_array_regexp v) t = true → jaStep v t = some t) ∧
    (∀ q t, reSearch (queue_regexp v) t = true → qStep v q t = some t) := by
  refine ⟨?_, fun t h => by simp [jaStep, h], fun q t h => by simp [qStep, h]⟩
  unfold write_batch_script at h1
  cases hj : jaStep v (resolveTemplate st) with
  | none => rw [hj] at h1; exact absurd h1 (by simp)
  | some tc =>
  rw [hj] at h1
  dsimp only at h1
  cases hq2 : qStep v st.queue tc with
  | none => rw [hq2] at h1; exact absurd h1 (by simp)
  | some td =>
  rw [hq2] at h1
  dsimp only at h1
  simp only [Option.some.injEq, Prod.mk.injEq] at h1
  obtain ⟨hst1, hout1⟩ := h1
  have hbt : st1.batch_template = td := by rw [← hst1]
  have hctx : st1.context = mkCtx st n := by rw [← hst1]
  have hqe : st1.queue = st.queue := by rw [← hst1]
  have htd : st1.batch_template ≠ [] := by
    intro hnil
    rw [hnil] at hja
    have hrs : reSearch (job_array_regexp v) [] = nullable (job_array_regexp v) := rfl
    rw [hrs, nullable_ja_false v] at hja
    exact Bool.false_ne_true hja
  unfold write_batch_script
  rw [resolveTemplate_ne st1 htd]
  have hja2 : jaStep v st1.batch_template = some st1.batch_template := by
    simp [jaStep, hja]
  rw [hja2]
  dsimp only
  have hq3 : qStep v st1.queue st1.batch_template = some st1.batch_template := by
    by_cases hqq : st.queue = []
    · simp [qStep, hqe, hqq]
    · have hpost := qStep_post v st.queue tc td hqq hq2
      rw [← hbt] at hpost
      simp [qStep, hpost]
  rw [hq3]
  dsimp only
  have hctx2 : mkCtx st1 n = mkCtx st n := mkCtx_stable st st1 n hctx hqe
  rw [hctx2, hbt, hout1]
  have hrec : ({ st1 with batch_template := td, context := mkCtx st n } : BatchState) = st1 := by
    rw [← hbt, ← hctx]
  rw [hrec]

/-- C9 (witness): a plain shell template without queue: the first call
injects the job-array line; the second call reproduces the same state and
the same script bytes. -/
theorem C9_witness :
    write_batch_script .pbs
      ⟨("#!/bin/sh\n#PBS -t 1-{n}\nbody\n").toList, none, [],
        [(("n"), ("4").toList), (("queue"), [])], []⟩ 4
    = some (⟨("#!/bin/sh\n#PBS -t 1-{n}\nbody\n").toList, none, [],
        [(("n"), ("4").toList), (("queue"), [])], []⟩,
      ("#!/bin/sh\n#PBS -t 1-4\nbody\n").toList) :=
  (C9_theorem .pbs ⟨("#!/bin/sh\nbody\n").toList, none, [], [], []⟩
    ⟨("#!/bin/sh\n#PBS -t 1-{n}\nbody\n").toList, none, [],
      [(("n"), ("4").toList), (("queue"), [])], []⟩ 4
    (("#!/bin/sh\n#PBS -t 1-4\nbody\n").toList) (by decide) (by decide)).1

end IPyBatch
